import Mathlib

/-!
Verification of the slot-filling conversation engine of the zapier-jira-mcp
repository. The definitions below are a shallow embedding of the TypeScript
sources:

* `src/informationExtractor.ts`  — deterministic extractor (`InformationExtractor`)
* `src/aiParameterExtractor.ts`  — probabilistic extractor adapter (`AIParameterExtractor`)
* `src/issueCreationFlow.ts`     — fallback flow (`IssueCreationFlow`)
* the AI-enhanced `ConversationManager` (`startIssueCreationWithAI`,
  `handleIssueCreationFlow`, `handleMissingParameterCollection`, ...)

JavaScript strings are modelled as Lean `String` (a list of characters);
`String.prototype.includes`, `toLowerCase`, `trim` and the few regular
expressions the code uses are modelled character by character below.
Confidence scores are rationals. The external OpenAI call is abstracted as an
`OracleOutcome` (the call throwing, the response being unparsable JSON, or a
successfully parsed response), exactly matching the three control paths of
`AIParameterExtractor.extractParameters` / `parseAIResponse`.
-/

/-! ## String primitives (JS `toLowerCase`, `trim`, `includes`) -/

/-- The whitespace characters relevant to `String.prototype.trim` for the
inputs of this development (ASCII whitespace). -/
def isWS (c : Char) : Bool :=
  c = ' ' || c = '\t' || c = '\n' || c = '\r'

/-- JS `toLowerCase` (ASCII). -/
def lowerStr (s : String) : String :=
  ⟨s.data.map Char.toLower⟩

/-- JS `toUpperCase` (ASCII). -/
def upperStr (s : String) : String :=
  ⟨s.data.map Char.toUpper⟩

/-- JS `trim` on a character list: strip leading and trailing whitespace. -/
def trimList (l : List Char) : List Char :=
  ((l.dropWhile isWS).reverse.dropWhile isWS).reverse

/-- JS `String.prototype.trim`. -/
def trimStr (s : String) : String :=
  ⟨trimList s.data⟩

/-- Does `needle` occur as a contiguous substring of `hay`
(JS `String.prototype.includes`)? -/
def containsSub (hay needle : List Char) : Bool :=
  match hay with
  | [] => needle.isEmpty
  | _ :: t => needle.isPrefixOf hay || containsSub t needle

/-- JS `String.prototype.includes` on strings. -/
def strContains (s sub : String) : Bool :=
  containsSub s.data sub.data

/-! ## Deterministic extractor (`src/informationExtractor.ts`) -/

/-- First entry of an association list whose key occurs as a substring of
`lower`; used for the `includes`-based keyword scans of
`InformationExtractor` (first match wins, insertion order). -/
def lookupBySub (lower : String) : List (String × String) → Option String
  | [] => none
  | (k, v) :: rest => if strContains lower k then some v else lookupBySub lower rest

/-- First entry of an association list whose key equals `k` exactly;
models a JS object-literal index `mapping[k]`. -/
def lookupExact (k : String) : List (String × String) → Option String
  | [] => none
  | (k', v) :: rest => if k = k' then some v else lookupExact k rest

/-- The `typeMapping` object of `extractIssueTypeFromResponse`, in insertion
order. -/
def typeMapping : List (String × String) :=
  [("bug", "Bug"), ("task", "Task"), ("story", "Story"), ("epic", "Epic")]

/-- `InformationExtractor.extractIssueTypeFromResponse`. -/
def extractIssueTypeFromResponse (userInput : String) : Option String :=
  lookupBySub (lowerStr userInput) typeMapping

/-- The `priorityMapping` object of `extractPriorityFromResponse`, in
insertion order. -/
def priorityMapping : List (String × String) :=
  [("lowest", "Lowest"), ("very low", "Lowest"), ("trivial", "Lowest"),
   ("low", "Low"), ("minor", "Low"),
   ("medium", "Medium"), ("normal", "Medium"), ("standard", "Medium"),
   ("high", "High"), ("important", "High"), ("urgent", "High"), ("major", "High"),
   ("highest", "Highest"), ("critical", "Highest"), ("blocker", "Highest"),
   ("severe", "Highest")]

/-- `InformationExtractor.extractPriorityFromResponse`. -/
def extractPriorityFromResponse (userInput : String) : Option String :=
  lookupBySub (lowerStr userInput) priorityMapping

/-- The `projectMapping` object of `extractProjectFromResponse`, in insertion
order. -/
def projectMappingER : List (String × String) :=
  [("demo", "FV Demo (Issues)"), ("fvdemo", "FV Demo (Issues)"),
   ("fv demo", "FV Demo (Issues)"), ("issues", "FV Demo (Issues)"),
   ("product", "FV Demo (Product)"), ("engineering", "FV Engineering"),
   ("eng", "FV Engineering")]

/-- The `fullProjectNames` array of `extractProjectFromResponse`. -/
def fullProjectNames : List String :=
  ["FV Product", "FV Engineering", "FV Demo (Issues)", "FV Demo (Product)"]

/-- JS `\w` word characters: `[A-Za-z0-9_]`. -/
def isWordChar (c : Char) : Bool :=
  c.isAlpha || c.isDigit || c = '_'

/-- Model of the first match of the regular expression
`\b([A-Z]+[A-Z0-9]*)\b` against a string, scanning left to right.
`prev` is the character before the current position (`none` at the start of
the string). At a position the match succeeds when a word boundary holds
there, a maximal run of `[A-Z]+` then `[A-Z0-9]*` follows, and the run is
followed by a non-word character or the end of the string; since every
character of the run is a word character, no shorter match can end inside it
(a word boundary cannot occur there), which is why failure advances the scan
instead of backtracking. -/
def findUpperToken (prev : Option Char) (l : List Char) : Option (List Char) :=
  match l with
  | [] => none
  | c :: rest =>
    let boundaryOk := match prev with
      | none => true
      | some p => !(isWordChar p)
    if boundaryOk && c.isUpper then
      let run1 := (c :: rest).takeWhile Char.isUpper
      let rest1 := (c :: rest).dropWhile Char.isUpper
      let run2 := rest1.takeWhile (fun d => d.isUpper || d.isDigit)
      let rest2 := rest1.dropWhile (fun d => d.isUpper || d.isDigit)
      let endOk := match rest2 with
        | [] => true
        | d :: _ => !(isWordChar d)
      if endOk then some (run1 ++ run2)
      else findUpperToken (some c) rest
    else findUpperToken (some c) rest

/-- `InformationExtractor.extractProjectFromResponse`: keyword mapping by
substring (first match wins), then exact full project names by substring of
the original input, then the uppercase-token regex fallback with the legacy
`DEMO` mapping. -/
def extractProjectFromResponse (userInput : String) : Option String :=
  let lowerInput := trimStr (lowerStr userInput)
  match lookupBySub lowerInput projectMappingER with
  | some v => some v
  | none =>
    match fullProjectNames.find? (fun n => strContains userInput n) with
    | some n => some n
    | none =>
      match findUpperToken none userInput.data with
      | some m =>
        let mu := upperStr ⟨m⟩
        if mu = "DEMO" then some "FV Demo (Issues)" else some mu
      | none => none

/-- `InformationExtractor.extractTitleFromResponse`: the trimmed utterance
when it is longer than 5 characters, otherwise nothing. -/
def extractTitleFromResponse (userInput : String) : Option String :=
  if 5 < (trimStr userInput).length then some (trimStr userInput) else none

/-- `InformationExtractor.extractDescriptionFromResponse`: the literal
answers "skip", "none" and "no description" (case-insensitively, after
trimming) denote an explicitly empty description. -/
def extractDescriptionFromResponse (userInput : String) : String :=
  let lowerInput := trimStr (lowerStr userInput)
  if lowerInput = "skip" || lowerInput = "none" || lowerInput = "no description" then ""
  else trimStr userInput

/-- Model of the first match of `/"([^"]+)"/`: the first non-empty run of
non-quote characters enclosed in double quotes. An opening quote immediately
followed by another quote yields no match there, and the scan resumes at the
second quote, exactly as the regex engine does. -/
def findQuoted (l : List Char) : Option (List Char) :=
  match l with
  | [] => none
  | c :: rest =>
    if c = '"' then
      let content := rest.takeWhile (fun d => d ≠ '"')
      let rest2 := rest.dropWhile (fun d => d ≠ '"')
      match rest2 with
      | [] => none
      | _ :: _ => if content.isEmpty then findQuoted rest else some content
    else findQuoted rest

/-- The quoted-title step of `InformationExtractor.extractExplicitInformation`
(the only branch of that function that assigns `title`): the first
double-quoted substring of the utterance, if any. -/
def extractExplicitTitle (userInput : String) : Option String :=
  (findQuoted userInput.data).map (fun l => ⟨l⟩)

/-- `InformationExtractor.detectsIssueCreationIntent`. -/
def detectsIssueCreationIntent (userInput : String) : Bool :=
  let l := lowerStr userInput
  (["create", "new", "make", "add", "report", "log", "submit"].any
      (fun k => strContains l k)) &&
  (["issue", "ticket", "bug", "task", "story", "epic", "problem"].any
      (fun k => strContains l k))

/-- `InformationExtractor.detectsSearchIntent`. -/
def detectsSearchIntent (userInput : String) : Bool :=
  let l := lowerStr userInput
  (strContains l "search" || strContains l "find") &&
  (strContains l "issue" || strContains l "ticket")

/-! ## Probabilistic extractor adapter (`src/aiParameterExtractor.ts`) -/

/-- The `source` tag of `ExtractedParameter`. -/
inductive Source where
  | ai_extracted
  | user_confirmed
  | follow_up_question
  | default
deriving DecidableEq

/-- `ExtractedParameter` from `aiParameterExtractor.ts`: value (or `null`),
confidence score, provenance tag. -/
structure ExtractedParameter where
  value : Option String
  confidence : ℚ
  source : Source
deriving DecidableEq

/-- `ExtractedParameters`: one `ExtractedParameter` per field. -/
structure ExtractedParameters where
  title : ExtractedParameter
  type : ExtractedParameter
  project : ExtractedParameter
  priority : ExtractedParameter
  description : ExtractedParameter
deriving DecidableEq

/-- JS truthiness of a possibly-null string: `null` and the empty string are
falsy. -/
def isFalsy (v : Option String) : Bool :=
  match v with
  | none => true
  | some s => s = ""

/-- One field of the JSON object parsed from the model response, before
normalization. `value`/`confidence` are `none` when the JSON key is missing
(JS `undefined`). -/
structure RawParam where
  value : Option String
  confidence : Option ℚ
deriving DecidableEq

/-- The parsed JSON object handed to `normalizeParameter`; `none` fields
model keys that are missing or not objects. -/
structure ParsedParams where
  title : Option RawParam
  type : Option RawParam
  project : Option RawParam
  priority : Option RawParam
  description : Option RawParam
deriving DecidableEq

/-- `Math.max(0, Math.min(1, q))`. -/
def clamp01 (q : ℚ) : ℚ := max 0 (min 1 q)

/-- `param.value || null`: a missing or empty-string (falsy) value becomes
`null`. -/
def jsValueOrNull (v : Option String) : Option String :=
  match v with
  | some s => if s = "" then none else some s
  | none => none

/-- `AIParameterExtractor.normalizeParameter`: a missing/non-object parameter
becomes `{value: null, confidence: 0}`; otherwise the value is kept
(`|| null`) and the confidence is clamped to `[0,1]` (`|| 0` for a missing
confidence). -/
def normalizeParameter (p : Option RawParam) : ExtractedParameter :=
  match p with
  | none => ⟨none, 0, .ai_extracted⟩
  | some r => ⟨jsValueOrNull r.value, clamp01 (r.confidence.getD 0), .ai_extracted⟩

/-- `AIParameterExtractor.createEmptyExtraction`. -/
def createEmptyExtraction : ExtractedParameters :=
  ⟨⟨none, 0, .ai_extracted⟩, ⟨none, 0, .ai_extracted⟩, ⟨none, 0, .ai_extracted⟩,
   ⟨none, 0, .ai_extracted⟩, ⟨none, 0, .ai_extracted⟩⟩

/-- `AIParameterExtractor.createDefaultExtraction`: the result returned when
the external call fails. -/
def createDefaultExtraction : ExtractedParameters :=
  ⟨⟨none, 0, .ai_extracted⟩,
   ⟨some "Bug", 1, .default⟩,
   ⟨some "FV Demo (Issues)", 1, .default⟩,
   ⟨some "Medium", 1, .default⟩,
   ⟨none, 0, .ai_extracted⟩⟩

/-- The acceptance threshold `0.6`. -/
def confidenceThreshold : ℚ := mkRat 6 10

/-- `AIParameterExtractor.applyDefaults`: defaults `type`, `project` and
`priority` when absent or extracted below confidence 0.6. -/
def applyDefaults (r : ExtractedParameters) : ExtractedParameters :=
  let r := if isFalsy r.type.value || r.type.confidence < confidenceThreshold then
    { r with type := ⟨some "Bug", 1, .default⟩ } else r
  let r := if isFalsy r.project.value || r.project.confidence < confidenceThreshold then
    { r with project := ⟨some "FV Demo (Issues)", 1, .default⟩ } else r
  let r := if isFalsy r.priority.value || r.priority.confidence < confidenceThreshold then
    { r with priority := ⟨some "Medium", 1, .default⟩ } else r
  r

/-- The successful branch of `AIParameterExtractor.parseAIResponse`: each of
the five fields of the parsed JSON is normalized. -/
def parseParsed (p : ParsedParams) : ExtractedParameters :=
  ⟨normalizeParameter p.title, normalizeParameter p.type, normalizeParameter p.project,
   normalizeParameter p.priority, normalizeParameter p.description⟩

/-- The three control paths of `AIParameterExtractor.extractParameters`:
the external OpenAI call throws (or returns no content), the response is not
parsable JSON (`parseAIResponse` falls into its catch), or the response
parses into a `ParsedParams` object. -/
inductive OracleOutcome where
  | failure
  | unparsable
  | parsed (p : ParsedParams)
deriving DecidableEq

/-- `AIParameterExtractor.extractParameters`: on success the parsed response
is normalized and defaults are applied; an unparsable response yields
`createEmptyExtraction` from `parseAIResponse` and then also passes through
`applyDefaults`; a failing call is caught and returns
`createDefaultExtraction`. -/
def extractParameters : OracleOutcome → ExtractedParameters
  | .failure => createDefaultExtraction
  | .unparsable => applyDefaults createEmptyExtraction
  | .parsed p => applyDefaults (parseParsed p)

/-- `AIParameterExtractor.identifyMissingParameters`: only `title` and
`description` are ever reported missing (in that order). -/
def identifyMissingParameters (e : ExtractedParameters) (threshold : ℚ) : List String :=
  (if isFalsy e.title.value || e.title.confidence < threshold then ["title"] else []) ++
  (if isFalsy e.description.value || e.description.confidence < threshold then ["description"] else [])

/-- The exact-match `projectMapping` of
`AIParameterExtractor.validateExtractedParameters`, in insertion order. -/
def validateProjectMapping : List (String × String) :=
  [("fv demo product", "FV Demo (Product)"), ("demo product", "FV Demo (Product)"),
   ("fv demo (product)", "FV Demo (Product)"), ("dpd", "FV Demo (Product)"),
   ("fv demo issues", "FV Demo (Issues)"), ("demo issues", "FV Demo (Issues)"),
   ("fv demo (issues)", "FV Demo (Issues)"), ("demo", "FV Demo (Issues)"),
   ("fvdemo", "FV Demo (Issues)"), ("dpi", "FV Demo (Issues)"),
   ("issues", "FV Demo (Issues)"),
   ("fv engineering", "FV Engineering"), ("engineering", "FV Engineering"),
   ("eng", "FV Engineering"),
   ("fv product", "FV Product"), ("prod", "FV Product")]

/-- The `validFullNames` array of `validateExtractedParameters`. -/
def validFullNames : List String :=
  ["FV Demo (Product)", "FV Demo (Issues)", "FV Engineering", "FV Product"]

/-- `AIParameterExtractor.validateExtractedParameters`: invalid `type` and
`priority` values are replaced by their defaults; `project` values are
resolved through the exact alias map, then against the full names, and
anything unrecognized (including the ambiguous "product"/"fv") falls back to
the default project. Truthiness guards (`if (validated.type.value)`) skip
null and empty values. -/
def validateExtractedParameters (e : ExtractedParameters) : ExtractedParameters :=
  let e := if isFalsy e.type.value then e
    else if (e.type.value.getD "") ∈ ["Bug", "Task", "Story", "Epic"] then e
    else { e with type := ⟨some "Bug", 1, .default⟩ }
  let e := if isFalsy e.priority.value then e
    else if (e.priority.value.getD "") ∈ ["Lowest", "Low", "Medium", "High", "Highest"] then e
    else { e with priority := ⟨some "Medium", 1, .default⟩ }
  let e := if isFalsy e.project.value then e
    else
      let normalized := trimStr (lowerStr (e.project.value.getD ""))
      match lookupExact normalized validateProjectMapping with
      | some mapped => { e with project := { e.project with value := some mapped } }
      | none =>
        match validFullNames.find? (fun n => lowerStr n = normalized || normalized = n) with
        | some n => { e with project := { e.project with value := some n } }
        | none => { e with project := ⟨some "FV Demo (Issues)", 1, .default⟩ }
  e

/-! ## Conversation state (`src/types.ts`) -/

/-- `IssueData` from `types.ts`; `none` models an unset (undefined) field. -/
structure IssueData where
  project : Option String
  issueType : Option String
  title : Option String
  description : Option String
  priority : Option String
deriving DecidableEq

/-- The empty object `{}` assigned by `resetState`. -/
def emptyIssueData : IssueData := ⟨none, none, none, none, none⟩

/-- The `IssueCreationStep` enumeration from `types.ts`. -/
inductive IssueCreationStep where
  | DETECTING_INTENT
  | AI_EXTRACTING
  | ASKING_PROJECT
  | ASKING_TYPE
  | ASKING_TITLE
  | ASKING_DESCRIPTION
  | ASKING_PRIORITY
  | CONFIRMING_DETAILS
  | READY_TO_CREATE
deriving DecidableEq

/-- `ConversationState` from `types.ts`. `hasAskedFor` (a JS `Set`) is
modelled as a duplicate-free list; `extractedParameters` and
`missingParameters` are optional exactly as in the source. -/
structure ConversationState where
  isCreatingIssue : Bool
  issueData : IssueData
  currentStep : IssueCreationStep
  hasAskedFor : List String
  extractedParameters : Option ExtractedParameters
  missingParameters : Option (List String)
deriving DecidableEq

/-- The initial state built in the `JiraAgent` constructor. -/
def initState : ConversationState :=
  ⟨false, emptyIssueData, .DETECTING_INTENT, [], none, none⟩

/-- `Set.prototype.add`. -/
def addAsked (x : String) (l : List String) : List String :=
  if x ∈ l then l else l ++ [x]

/-! ## Conversation engine (`ConversationManager` and `IssueCreationFlow`) -/

/-- The `action` component of the result of
`ConversationManager.processUserInput`. -/
inductive TurnAction where
  | continue'
  | create_issue
  | search
  | cancel
  | regular_chat
deriving DecidableEq

/-- The messages the engine can emit, abstracted from their exact phrasing:
only which question (or which fixed message) is emitted matters to the
properties below. `question p` is `generateQuestionForParameter p ctx`;
`questionRetry p` is the same question with the "Please provide a valid
response." suffix; `confirmPrompt` is the yes/no confirmation request;
`cancelled` is the cancellation acknowledgement; `stepQuestion s` is
`IssueCreationFlow.getQuestionForStep s` of the fallback flow, and
`stepError s` the error message of a failed `processResponse` at step `s`. -/
inductive Message where
  | question (param : String)
  | questionRetry (param : String)
  | confirmPrompt
  | cancelled
  | stepQuestion (step : IssueCreationStep)
  | stepError (step : IssueCreationStep)
deriving DecidableEq

/-- The result of one turn: the action and the message shown to the user
(the `searchQuery` of the `search` action is not modelled; no property below
concerns it). -/
structure TurnResult where
  action : TurnAction
  message : Option Message
deriving DecidableEq

/-- `IssueCreationFlow.checkForCancellation`: "cancel", "stop" or "abort"
anywhere in the lowercased utterance. -/
def checkForCancellation (userInput : String) : Bool :=
  let l := lowerStr userInput
  strContains l "cancel" || strContains l "stop" || strContains l "abort"

/-- `IssueCreationFlow.resetState`: exits issue-creation mode, empties the
issue data, resets the step and clears `hasAskedFor`. `extractedParameters`
and `missingParameters` are not touched, as in the source. -/
def resetState (s : ConversationState) : ConversationState :=
  { s with isCreatingIssue := false, issueData := emptyIssueData,
           currentStep := .DETECTING_INTENT, hasAskedFor := [] }

/-- `ConversationManager.getStepForParameter`. -/
def getStepForParameter (parameter : String) : IssueCreationStep :=
  if parameter = "project" then .ASKING_PROJECT
  else if parameter = "type" then .ASKING_TYPE
  else if parameter = "title" then .ASKING_TITLE
  else if parameter = "description" then .ASKING_DESCRIPTION
  else if parameter = "priority" then .ASKING_PRIORITY
  else .ASKING_TITLE

/-- `ConversationManager.convertExtractedToIssueData`: copies every field
extracted with confidence at least 0.6 (and a truthy value) into the issue
data. -/
def convertExtractedToIssueData (e : ExtractedParameters) (d : IssueData) : IssueData :=
  let d := if !isFalsy e.title.value && confidenceThreshold ≤ e.title.confidence then
    { d with title := e.title.value } else d
  let d := if !isFalsy e.type.value && confidenceThreshold ≤ e.type.confidence then
    { d with issueType := e.type.value } else d
  let d := if !isFalsy e.project.value && confidenceThreshold ≤ e.project.confidence then
    { d with project := e.project.value } else d
  let d := if !isFalsy e.priority.value && confidenceThreshold ≤ e.priority.confidence then
    { d with priority := e.priority.value } else d
  let d := if !isFalsy e.description.value && confidenceThreshold ≤ e.description.confidence then
    { d with description := e.description.value } else d
  d

/-- `ConversationManager.processParameterResponse`: interpret the answer for
one targeted parameter; `none` models the `false` (rejected answer) result,
`some d` the updated issue data. A `description` answer always succeeds. -/
def processParameterResponse (userInput : String) (parameter : String)
    (d : IssueData) : Option IssueData :=
  if parameter = "project" then
    (extractProjectFromResponse userInput).map (fun p => { d with project := some p })
  else if parameter = "type" then
    (extractIssueTypeFromResponse userInput).map (fun t => { d with issueType := some t })
  else if parameter = "title" then
    (extractTitleFromResponse userInput).map (fun t => { d with title := some t })
  else if parameter = "description" then
    some { d with description := some (extractDescriptionFromResponse userInput) }
  else if parameter = "priority" then
    (extractPriorityFromResponse userInput).map (fun p => { d with priority := some p })
  else none

/-- `ConversationManager.handleMissingParameterCollection`: process the
answer for the head of `missingParameters`; on failure re-ask with the
"valid response" suffix without advancing, on success pop the parameter and
either ask the next one or show the confirmation summary. -/
def handleMissingParameterCollection (userInput : String)
    (s : ConversationState) : ConversationState × TurnResult :=
  match s.missingParameters with
  | some (current :: rest) =>
    match processParameterResponse userInput current s.issueData with
    | none => (s, ⟨.continue', some (.questionRetry current)⟩)
    | some d =>
      let s := { s with issueData := d, missingParameters := some rest }
      match rest with
      | [] => ({ s with currentStep := .CONFIRMING_DETAILS },
               ⟨.continue', some .confirmPrompt⟩)
      | next :: _ => ({ s with currentStep := getStepForParameter next },
                      ⟨.continue', some (.question next)⟩)
  | _ => (s, ⟨.continue', none⟩)

/-- The success value of `IssueCreationFlow.handleConfirmationResponse`. -/
inductive RespValue where
  | confirmed
  | cancelled
deriving DecidableEq

/-- `IssueCreationFlow.processResponse` (fallback flow): `none` models a
failed (`success: false`) response, otherwise the updated issue data plus
the optional confirmation value. -/
def processResponse (userInput : String) (step : IssueCreationStep)
    (d : IssueData) : Option (IssueData × Option RespValue) :=
  match step with
  | .ASKING_PROJECT =>
    (extractProjectFromResponse userInput).map (fun p => ({ d with project := some p }, none))
  | .ASKING_TYPE =>
    (extractIssueTypeFromResponse userInput).map (fun t => ({ d with issueType := some t }, none))
  | .ASKING_TITLE =>
    (extractTitleFromResponse userInput).map (fun t => ({ d with title := some t }, none))
  | .ASKING_DESCRIPTION =>
    some ({ d with description := some (extractDescriptionFromResponse userInput) }, none)
  | .ASKING_PRIORITY =>
    (extractPriorityFromResponse userInput).map (fun p => ({ d with priority := some p }, none))
  | .CONFIRMING_DETAILS =>
    let l := lowerStr userInput
    if strContains l "yes" || strContains l "confirm" || strContains l "create" then
      some (d, some .confirmed)
    else if strContains l "no" || strContains l "cancel" then
      some (d, some .cancelled)
    else none
  | _ => none

/-- JS truthiness of an optional string field of `issueData`. -/
def truthy (v : Option String) : Bool :=
  match v with
  | none => false
  | some s => s ≠ ""

/-- `IssueCreationFlow.hasAllRequiredData`. -/
def hasAllRequiredData (d : IssueData) : Bool :=
  truthy d.project && truthy d.issueType && truthy d.title && truthy d.priority

/-- `IssueCreationFlow.determineNextStep`. -/
def determineNextStep (s : ConversationState) : IssueCreationStep :=
  if !truthy s.issueData.project && "project" ∉ s.hasAskedFor then .ASKING_PROJECT
  else if !truthy s.issueData.issueType && "type" ∉ s.hasAskedFor then .ASKING_TYPE
  else if !truthy s.issueData.title && "title" ∉ s.hasAskedFor then .ASKING_TITLE
  else if !truthy s.issueData.description && "description" ∉ s.hasAskedFor then .ASKING_DESCRIPTION
  else if !truthy s.issueData.priority && "priority" ∉ s.hasAskedFor then .ASKING_PRIORITY
  else if hasAllRequiredData s.issueData then .CONFIRMING_DETAILS
  else .READY_TO_CREATE

/-- `ConversationManager.markStepAsAsked`. -/
def markStepAsAsked (step : IssueCreationStep) (l : List String) : List String :=
  match step with
  | .ASKING_PROJECT => addAsked "project" l
  | .ASKING_TYPE => addAsked "type" l
  | .ASKING_TITLE => addAsked "title" l
  | .ASKING_DESCRIPTION => addAsked "description" l
  | .ASKING_PRIORITY => addAsked "priority" l
  | _ => l

/-- The fallback tail of `ConversationManager.handleIssueCreationFlow`
(the traditional step-by-step flow, reached when no AI-extracted missing
parameters are pending). -/
def handleFallbackFlow (userInput : String) (s : ConversationState) :
    ConversationState × TurnResult :=
  match processResponse userInput s.currentStep s.issueData with
  | none => (s, ⟨.continue', some (.stepError s.currentStep)⟩)
  | some (d, val) =>
    let s := { s with issueData := d }
    if s.currentStep = .CONFIRMING_DETAILS ∧ val = some .confirmed then
      (s, ⟨.create_issue, none⟩)
    else if s.currentStep = .CONFIRMING_DETAILS ∧ val = some .cancelled then
      (resetState s, ⟨.cancel, some .cancelled⟩)
    else
      let next := determineNextStep s
      if next = .CONFIRMING_DETAILS then
        ({ s with currentStep := next }, ⟨.continue', some (.stepQuestion next)⟩)
      else if next = .READY_TO_CREATE then
        (s, ⟨.create_issue, none⟩)
      else
        ({ s with currentStep := next, hasAskedFor := markStepAsAsked next s.hasAskedFor },
         ⟨.continue', some (.stepQuestion next)⟩)

/-- `ConversationManager.handleIssueCreationFlow`: cancellation keywords are
checked first; then the AI-flow confirmation step; then collection of the
AI-identified missing parameters; otherwise the fallback flow. -/
def handleIssueCreationFlow (userInput : String) (s : ConversationState) :
    ConversationState × TurnResult :=
  if checkForCancellation userInput then
    (resetState s, ⟨.cancel, some .cancelled⟩)
  else if s.currentStep = .CONFIRMING_DETAILS ∧ s.extractedParameters ≠ none then
    let l := lowerStr userInput
    if strContains l "yes" || strContains l "confirm" || strContains l "create" then
      (s, ⟨.create_issue, none⟩)
    else if strContains l "no" || strContains l "cancel" then
      (resetState s, ⟨.cancel, some .cancelled⟩)
    else
      (s, ⟨.continue', some .confirmPrompt⟩)
  else
    match s.missingParameters with
    | some (_ :: _) => handleMissingParameterCollection userInput s
    | _ => handleFallbackFlow userInput s

/-- `ConversationManager.startIssueCreationWithAI`: run the probabilistic
extraction (abstracted by the `OracleOutcome`), validate it, compute the
missing parameters, seed the issue data, and either signal immediate
creation (nothing missing) or ask for the first missing parameter. The
`catch` fallback of the source is unreachable here because
`extractParameters` handles its own errors (its failure path is the
`OracleOutcome.failure` case). -/
def startIssueCreationWithAI (oracle : OracleOutcome)
    (s : ConversationState) : ConversationState × TurnResult :=
  let s := { s with isCreatingIssue := true, currentStep := .AI_EXTRACTING }
  let validated := validateExtractedParameters (extractParameters oracle)
  let missing := identifyMissingParameters validated confidenceThreshold
  let s := { s with extractedParameters := some validated, missingParameters := some missing }
  let s := { s with issueData := convertExtractedToIssueData validated s.issueData }
  match missing with
  | [] => (s, ⟨.create_issue, none⟩)
  | m :: _ =>
    ({ s with currentStep := getStepForParameter m, hasAskedFor := addAsked m s.hasAskedFor },
     ⟨.continue', some (.question m)⟩)

/-- `ConversationManager.processUserInput`: dispatch on the current mode and
the detected intent. -/
def processUserInput (oracle : OracleOutcome) (userInput : String)
    (s : ConversationState) : ConversationState × TurnResult :=
  if s.isCreatingIssue then handleIssueCreationFlow userInput s
  else if detectsIssueCreationIntent userInput then startIssueCreationWithAI oracle s
  else if detectsSearchIntent userInput then (s, ⟨.search, none⟩)
  else (s, ⟨.regular_chat, none⟩)

/-! ## Helper lemmas -/

theorem applyDefaults_title (e : ExtractedParameters) : (applyDefaults e).title = e.title := by
  simp only [applyDefaults]
  split_ifs <;> rfl

theorem applyDefaults_description (e : ExtractedParameters) :
    (applyDefaults e).description = e.description := by
  simp only [applyDefaults]
  split_ifs <;> rfl

theorem validate_title (e : ExtractedParameters) :
    (validateExtractedParameters e).title = e.title := by
  simp only [validateExtractedParameters]
  split_ifs <;> (try rfl) <;> (repeat' split) <;> rfl

theorem validate_description (e : ExtractedParameters) :
    (validateExtractedParameters e).description = e.description := by
  simp only [validateExtractedParameters]
  split_ifs <;> (try rfl) <;> (repeat' split) <;> rfl

theorem extractParameters_parsed_title (p : ParsedParams) :
    (validateExtractedParameters (extractParameters (.parsed p))).title = normalizeParameter p.title := by
  rw [validate_title]
  show (applyDefaults (parseParsed p)).title = _
  rw [applyDefaults_title]
  rfl

theorem extractParameters_parsed_description (p : ParsedParams) :
    (validateExtractedParameters (extractParameters (.parsed p))).description
      = normalizeParameter p.description := by
  rw [validate_description]
  show (applyDefaults (parseParsed p)).description = _
  rw [applyDefaults_description]
  rfl

theorem lookupBySub_mem_values (lower : String) (m : List (String × String)) (v : String)
    (h : lookupBySub lower m = some v) : v ∈ m.map Prod.snd := by
  induction m with
  | nil => simp [lookupBySub] at h
  | cons kv rest ih =>
    obtain ⟨k, w⟩ := kv
    rw [lookupBySub] at h
    by_cases hc : strContains lower k = true
    · rw [if_pos hc] at h
      injection h with h
      simp [h]
    · rw [if_neg hc] at h
      simpa using Or.inr (ih h)

theorem extractPriority_range (x v : String) (h : extractPriorityFromResponse x = some v) :
    v = "Lowest" ∨ v = "Low" ∨ v = "Medium" ∨ v = "High" ∨ v = "Highest" := by
  have hm := lookupBySub_mem_values _ _ _ h
  simp only [priorityMapping, List.map_cons, List.map_nil, List.mem_cons,
    List.not_mem_nil, or_false] at hm
  rcases hm with rfl|rfl|rfl|rfl|rfl|rfl|rfl|rfl|rfl|rfl|rfl|rfl|rfl|rfl|rfl|rfl <;> simp

theorem extractIssueType_range (x v : String) (h : extractIssueTypeFromResponse x = some v) :
    v = "Bug" ∨ v = "Task" ∨ v = "Story" ∨ v = "Epic" := by
  have hm := lookupBySub_mem_values _ _ _ h
  simp only [typeMapping, List.map_cons, List.map_nil, List.mem_cons,
    List.not_mem_nil, or_false] at hm
  rcases hm with rfl|rfl|rfl|rfl <;> simp

theorem isPrefixOf_self_append (a b : List Char) : a.isPrefixOf (a ++ b) = true := by
  induction a with
  | nil => cases b <;> rfl
  | cons c t ih => simp [List.isPrefixOf, ih]

theorem isPrefixOf_head_ne (k0 c : Char) (k' t : List Char) (h : k0 ≠ c) :
    (k0 :: k').isPrefixOf (c :: t) = false := by
  simp [List.isPrefixOf, h]

theorem isPrefixOf_wsTail (k b a : List Char) (hk : ∀ c ∈ k, isWS c = false)
    (ha : ∀ c ∈ a, isWS c = true) :
    k.isPrefixOf (b ++ a) = k.isPrefixOf b := by
  induction k generalizing b with
  | nil => simp [List.isPrefixOf]
  | cons k0 k' ih =>
    cases b with
    | nil =>
      simp only [List.nil_append]
      cases a with
      | nil => rfl
      | cons c t =>
        have hne : k0 ≠ c := by
          intro he
          have h1 : isWS k0 = false := hk k0 (by simp)
          have h2 : isWS c = true := ha c (by simp)
          rw [he, h2] at h1
          exact Bool.noConfusion h1
        rw [isPrefixOf_head_ne _ _ _ _ hne]
        rfl
    | cons b0 b' =>
      simp only [List.cons_append, List.isPrefixOf, List.append_eq]
      rw [ih b' (fun c hc => hk c (List.mem_cons_of_mem _ hc))]

theorem containsSub_allWS (a k : List Char) (ha : ∀ c ∈ a, isWS c = true)
    (hk : ∀ c ∈ k, isWS c = false) (hne : k ≠ []) : containsSub a k = false := by
  induction a with
  | nil =>
    obtain ⟨k0, k', rfl⟩ := List.exists_cons_of_ne_nil hne
    rfl
  | cons c t ih =>
    obtain ⟨k0, k', rfl⟩ := List.exists_cons_of_ne_nil hne
    have hne2 : k0 ≠ c := by
      intro he
      have h1 : isWS k0 = false := hk k0 (by simp)
      have h2 : isWS c = true := ha c (by simp)
      rw [he, h2] at h1
      exact Bool.noConfusion h1
    rw [containsSub, isPrefixOf_head_ne _ _ _ _ hne2,
      ih (fun d hd => ha d (List.mem_cons_of_mem _ hd))]
    rfl

theorem containsSub_wsPrefix (a b k : List Char) (ha : ∀ c ∈ a, isWS c = true)
    (hk : ∀ c ∈ k, isWS c = false) (hne : k ≠ []) :
    containsSub (a ++ b) k = containsSub b k := by
  induction a with
  | nil => rfl
  | cons c t ih =>
    obtain ⟨k0, k', rfl⟩ := List.exists_cons_of_ne_nil hne
    have hne2 : k0 ≠ c := by
      intro he
      have h1 : isWS k0 = false := hk k0 (by simp)
      have h2 : isWS c = true := ha c (by simp)
      rw [he, h2] at h1
      exact Bool.noConfusion h1
    rw [List.cons_append, containsSub, isPrefixOf_head_ne _ _ _ _ hne2,
      ih (fun d hd => ha d (List.mem_cons_of_mem _ hd))]
    rfl

theorem containsSub_wsSuffix (b a k : List Char) (ha : ∀ c ∈ a, isWS c = true)
    (hk : ∀ c ∈ k, isWS c = false) (hne : k ≠ []) :
    containsSub (b ++ a) k = containsSub b k := by
  induction b with
  | nil =>
    simp only [List.nil_append]
    rw [containsSub_allWS a k ha hk hne]
    obtain ⟨k0, k', rfl⟩ := List.exists_cons_of_ne_nil hne
    rfl
  | cons c t ih =>
    rw [List.cons_append, containsSub, containsSub, ih, ← List.cons_append,
      isPrefixOf_wsTail k (c :: t) a hk ha]

theorem containsSub_trimList (l k : List Char) (hk : ∀ c ∈ k, isWS c = false)
    (hne : k ≠ []) : containsSub l k = containsSub (trimList l) k := by
  conv_lhs => rw [← List.takeWhile_append_dropWhile (p := isWS) (l := l)]
  rw [containsSub_wsPrefix _ _ _ (fun c hc => List.mem_takeWhile_imp hc) hk hne]
  have hm : l.dropWhile isWS
      = trimList l ++ ((l.dropWhile isWS).reverse.takeWhile isWS).reverse := by
    conv_lhs => rw [← (l.dropWhile isWS).reverse_reverse,
      ← List.takeWhile_append_dropWhile (p := isWS) (l := (l.dropWhile isWS).reverse)]
    rw [List.reverse_append]
    rfl
  rw [hm, containsSub_wsSuffix _ _ _
    (fun c hc => List.mem_takeWhile_imp (List.mem_reverse.mp hc)) hk hne]

theorem strContains_trim (u kw : String) (hk : ∀ c ∈ kw.data, isWS c = false)
    (hne : kw.data ≠ []) :
    strContains u kw = containsSub (trimStr u).data kw.data := by
  unfold strContains trimStr
  exact containsSub_trimList u.data kw.data hk hne

theorem checkForCancellation_of_skipToken (u : String)
    (h : trimStr (lowerStr u) = "skip" ∨ trimStr (lowerStr u) = "none"
       ∨ trimStr (lowerStr u) = "no description") :
    checkForCancellation u = false := by
  unfold checkForCancellation
  have hc : strContains (lowerStr u) "cancel" = false := by
    rw [strContains_trim _ _ (by decide) (by decide)]
    rcases h with h | h | h <;>
      rw [show (trimStr (lowerStr u)).data = _ from congrArg String.data h] <;> decide
  have hs : strContains (lowerStr u) "stop" = false := by
    rw [strContains_trim _ _ (by decide) (by decide)]
    rcases h with h | h | h <;>
      rw [show (trimStr (lowerStr u)).data = _ from congrArg String.data h] <;> decide
  have ha : strContains (lowerStr u) "abort" = false := by
    rw [strContains_trim _ _ (by decide) (by decide)]
    rcases h with h | h | h <;>
      rw [show (trimStr (lowerStr u)).data = _ from congrArg String.data h] <;> decide
  simp [hc, hs, ha]

theorem head_dropWhile_false (p : Char → Bool) (t : List Char) (d : Char)
    (r : List Char) (hd : t.dropWhile p = d :: r) : p d = false := by
  induction t with
  | nil => simp [List.dropWhile] at hd
  | cons x xs ih =>
    rw [List.dropWhile] at hd
    cases hx : p x with
    | true =>
      rw [hx] at hd
      dsimp only at hd
      exact ih hd
    | false =>
      rw [hx] at hd
      dsimp only at hd
      injection hd with h1 h2
      subst h1
      exact hx

theorem findQuoted_sound (l content : List Char) (h : findQuoted l = some content) :
    containsSub l ('"' :: (content ++ ['"'])) = true := by
  induction l with
  | nil => simp [findQuoted] at h
  | cons c t ih =>
    rw [findQuoted] at h
    by_cases hc : c = '"'
    · rw [if_pos hc] at h
      rcases hd : t.dropWhile (fun d => d ≠ '"') with _ | ⟨d, r⟩
      · rw [hd] at h
        dsimp only at h
        exact Option.noConfusion h
      · rw [hd] at h
        dsimp only at h
        by_cases he : (t.takeWhile (fun d => d ≠ '"')).isEmpty = true
        · rw [if_pos he] at h
          rw [containsSub, ih h]
          simp
        · rw [if_neg he] at h
          injection h with h
          subst h
          have hdq : d = '"' := by simpa using head_dropWhile_false _ _ _ _ hd
          rw [containsSub, hc]
          set A := t.takeWhile (fun d => d ≠ '"') with hA
          have ht : t = A ++ ('"' :: r) := by
            conv_lhs => rw [← List.takeWhile_append_dropWhile
              (p := fun d => d ≠ '"') (l := t)]
            rw [hd, hdq, ← hA]
          rw [ht]
          have hp : ('"' :: (A ++ ['"'])).isPrefixOf ('"' :: (A ++ '"' :: r)) = true := by
            have h2 := isPrefixOf_self_append ('"' :: (A ++ ['"'])) r
            rw [show ('"' :: (A ++ ['"'])) ++ r = '"' :: (A ++ '"' :: r) by simp] at h2
            exact h2
          rw [hp]
          simp
    · rw [if_neg hc] at h
      rw [containsSub, ih h]
      simp

/-! ## Claims -/

/-- C2, counterexample: canonicalization of enumeration fields is not
idempotent. For priority, "critical" canonicalizes to "Highest", but
"Highest" re-canonicalizes to "High" (the key "high" is checked before
"highest" and matches by substring). For project, "product" canonicalizes
to "FV Demo (Product)", which re-canonicalizes to "FV Demo (Issues)"
(its lowercase form contains the key "demo"). -/
theorem canonicalize_not_idempotent :
    extractPriorityFromResponse "critical" = some "Highest" ∧
    extractPriorityFromResponse "Highest" = some "High" ∧
    some "High" ≠ some "Highest" ∧
    extractProjectFromResponse "product" = some "FV Demo (Product)" ∧
    extractProjectFromResponse "FV Demo (Product)" = some "FV Demo (Issues)" ∧
    some "FV Demo (Issues)" ≠ some "FV Demo (Product)" := by
  refine ⟨by decide, by decide, by decide, by decide, by decide, by decide⟩

/-- C2, amended: canonicalization is idempotent for the type field on every
input; for priority it is idempotent on every input whose canonical value is
not "Highest"; for project it is idempotent on every input whose canonical
value is "FV Demo (Issues)" or "FV Engineering". -/
theorem canonicalize_idempotent_amended :
    (∀ x v, extractIssueTypeFromResponse x = some v →
      extractIssueTypeFromResponse v = some v) ∧
    (∀ x v, extractPriorityFromResponse x = some v → v ≠ "Highest" →
      extractPriorityFromResponse v = some v) ∧
    (∀ x v, extractProjectFromResponse x = some v →
      (v = "FV Demo (Issues)" ∨ v = "FV Engineering") →
      extractProjectFromResponse v = some v) := by
  refine ⟨?_, ?_, ?_⟩
  · intro x v h
    rcases extractIssueType_range x v h with rfl | rfl | rfl | rfl <;> decide
  · intro x v h hne
    rcases extractPriority_range x v h with rfl | rfl | rfl | rfl | rfl
    · decide
    · decide
    · decide
    · decide
    · exact absurd rfl hne
  · intro x v _ hv
    rcases hv with rfl | rfl <;> decide

/-- C2, witness for the amended theorem at concrete inputs. -/
theorem canonicalize_idempotent_amended_witness :
    extractIssueTypeFromResponse "a bug here" = some "Bug" ∧
    extractIssueTypeFromResponse "Bug" = some "Bug" ∧
    extractPriorityFromResponse "urgent fix" = some "High" ∧
    extractPriorityFromResponse "High" = some "High" ∧
    extractProjectFromResponse "eng please" = some "FV Engineering" ∧
    extractProjectFromResponse "FV Engineering" = some "FV Engineering" :=
  ⟨by decide,
   canonicalize_idempotent_amended.1 "a bug here" "Bug" (by decide),
   by decide,
   canonicalize_idempotent_amended.2.1 "urgent fix" "High" (by decide) (by decide),
   by decide,
   canonicalize_idempotent_amended.2.2 "eng please" "FV Engineering" (by decide)
     (Or.inr rfl)⟩

/-- C3, counterexample: when the external call fails, the adapter does not
return an all-absent result — the three enumeration fields come back
populated with defaults; likewise for an unparsable response. -/
theorem extraction_failure_not_all_absent :
    (extractParameters .failure).type.value = some "Bug" ∧
    (extractParameters .failure).type.value ≠ none ∧
    (extractParameters .failure).project.value = some "FV Demo (Issues)" ∧
    (extractParameters .failure).priority.value = some "Medium" ∧
    (extractParameters .unparsable).type.value = some "Bug" := by
  refine ⟨by decide, by decide, by decide, by decide, by decide⟩

/-- C3, amended: when the external call fails or its output is unparsable,
`title` and `description` come back absent with confidence 0, while the
three enumeration fields are populated with the defaults Bug,
"FV Demo (Issues)" and Medium at confidence 1 with source `default`; the
result is identical in both cases. -/
theorem extraction_failure_defaults :
    extractParameters .failure = createDefaultExtraction ∧
    extractParameters .unparsable = createDefaultExtraction ∧
    createDefaultExtraction.title = ⟨none, 0, .ai_extracted⟩ ∧
    createDefaultExtraction.description = ⟨none, 0, .ai_extracted⟩ ∧
    createDefaultExtraction.type = ⟨some "Bug", 1, .default⟩ ∧
    createDefaultExtraction.project = ⟨some "FV Demo (Issues)", 1, .default⟩ ∧
    createDefaultExtraction.priority = ⟨some "Medium", 1, .default⟩ := by
  refine ⟨by decide, by decide, rfl, rfl, rfl, rfl, rfl⟩

/-- C8, counterexample: `normalizeParameter` keeps the reported confidence
even when the value is absent — normalizing `{value: null, confidence: 0.9}`
yields an absent value with confidence 0.9, not 0. -/
theorem normalizeParameter_absent_confidence :
    (normalizeParameter (some ⟨none, some (mkRat 9 10)⟩)).value = none ∧
    (normalizeParameter (some ⟨none, some (mkRat 9 10)⟩)).confidence = mkRat 9 10 ∧
    mkRat 9 10 ≠ 0 := by
  refine ⟨rfl, by decide, by decide⟩

/-- C8, amended: every normalized parameter has its confidence clamped to
the interval `[0,1]`, and a missing or non-object raw parameter normalizes
to an absent value with confidence 0; but an object with a null value keeps
its reported (clamped) confidence, so an absent value does not force
confidence 0. -/
theorem normalizeParameter_invariant (p : Option RawParam) :
    0 ≤ (normalizeParameter p).confidence ∧
    (normalizeParameter p).confidence ≤ 1 ∧
    normalizeParameter none = ⟨none, 0, .ai_extracted⟩ := by
  refine ⟨?_, ?_, rfl⟩ <;> cases p <;>
    simp [normalizeParameter, clamp01, le_max_iff, min_le_iff, le_refl, zero_le_one]

/-- C8, witness for the amended theorem at a concrete raw parameter. -/
theorem normalizeParameter_invariant_witness :
    0 ≤ (normalizeParameter (some ⟨some "x", some 2⟩)).confidence ∧
    (normalizeParameter (some ⟨some "x", some 2⟩)).confidence ≤ 1 ∧
    normalizeParameter none = ⟨none, 0, .ai_extracted⟩ :=
  normalizeParameter_invariant (some ⟨some "x", some 2⟩)

/-- C7, counterexample: there is no single deterministic title extraction
that prefers quoted substrings and otherwise falls back to the trimmed
utterance. The follow-up extractor ignores quotes — on an utterance
containing the quoted substring "hi" it returns the whole trimmed utterance,
not the quoted text — and the first-pass quoted-title extractor returns
nothing at all for a long unquoted utterance instead of the trimmed
utterance. -/
theorem title_extraction_counterexample :
    extractTitleFromResponse "say \"hi\" ok" = some "say \"hi\" ok" ∧
    some "say \"hi\" ok" ≠ some "hi" ∧
    extractExplicitTitle "say \"hi\" ok" = some "hi" ∧
    extractExplicitTitle "hello world today" = none ∧
    5 < (trimStr "hello world today").length := by
  refine ⟨by decide, by decide, by decide, by decide, by decide⟩

/-- C7, amended: the quoted-substring preference exists only in the
first-pass extractor, which returns the first double-quoted substring when
one exists (the returned text occurs in the utterance enclosed in double
quotes) and no title otherwise; the follow-up title extractor ignores quotes
entirely and returns the trimmed utterance exactly when its length exceeds 5
characters, else absent. -/
theorem title_extraction_amended (u q : String)
    (hq : extractExplicitTitle u = some q) :
    containsSub u.data ('"' :: (q.data ++ ['"'])) = true ∧
    (5 < (trimStr u).length → extractTitleFromResponse u = some (trimStr u)) ∧
    (¬ 5 < (trimStr u).length → extractTitleFromResponse u = none) := by
  refine ⟨?_, ?_, ?_⟩
  · unfold extractExplicitTitle at hq
    rcases hf : findQuoted u.data with _ | content
    · rw [hf] at hq
      exact Option.noConfusion hq
    · rw [hf] at hq
      injection hq with hq
      have : content = q.data := by
        rw [← hq]
      rw [← this]
      exact findQuoted_sound u.data content hf
  · intro h
    unfold extractTitleFromResponse
    rw [if_pos h]
  · intro h
    unfold extractTitleFromResponse
    rw [if_neg h]

/-- C7, witness for the amended theorem at a concrete quoted utterance. -/
theorem title_extraction_amended_witness :
    extractExplicitTitle "make a bug \"Login broken\" now" = some "Login broken" ∧
    (containsSub ("make a bug \"Login broken\" now").data
      ('"' :: (("Login broken").data ++ ['"'])) = true ∧
    (5 < (trimStr "make a bug \"Login broken\" now").length →
      extractTitleFromResponse "make a bug \"Login broken\" now"
        = some (trimStr "make a bug \"Login broken\" now")) ∧
    (¬ 5 < (trimStr "make a bug \"Login broken\" now").length →
      extractTitleFromResponse "make a bug \"Login broken\" now" = none)) :=
  ⟨by decide, title_extraction_amended "make a bug \"Login broken\" now"
    "Login broken" (by decide)⟩

/-- C9: while the engine is in issue-creation mode, an utterance whose
lowercase form contains "cancel", "stop" or "abort" anywhere always cancels
the conversation: the cancellation check runs before any answer processing,
the whole turn returns the reset state (issue data emptied, asked-set
emptied, mode back to idle), so the utterance is never recorded as a field
value and never advances the flow. -/
theorem cancellation_precedes_answers (o : OracleOutcome) (u : String)
    (s : ConversationState)
    (hCreating : s.isCreatingIssue = true)
    (hCancel : strContains (lowerStr u) "cancel" = true ∨
      strContains (lowerStr u) "stop" = true ∨
      strContains (lowerStr u) "abort" = true) :
    processUserInput o u s = (resetState s, ⟨.cancel, some .cancelled⟩) ∧
    (resetState s).issueData = emptyIssueData ∧
    (resetState s).hasAskedFor = [] ∧
    (resetState s).isCreatingIssue = false ∧
    (resetState s).currentStep = .DETECTING_INTENT := by
  have hc : checkForCancellation u = true := by
    unfold checkForCancellation
    rcases hCancel with h | h | h <;> simp [h]
  refine ⟨?_, rfl, rfl, rfl, rfl⟩
  unfold processUserInput
  rw [hCreating]
  unfold handleIssueCreationFlow
  rw [hc]
  simp

/-- C9, witness: the utterance "please stop" issued while collecting a
title always cancels. -/
theorem cancellation_precedes_answers_witness :
    (⟨true, emptyIssueData, .ASKING_TITLE, ["title"], some createDefaultExtraction,
        some ["title", "description"]⟩ : ConversationState).isCreatingIssue = true ∧
    strContains (lowerStr "please stop") "stop" = true ∧
    processUserInput .failure "please stop"
        ⟨true, emptyIssueData, .ASKING_TITLE, ["title"], some createDefaultExtraction,
          some ["title", "description"]⟩
      = (resetState ⟨true, emptyIssueData, .ASKING_TITLE, ["title"],
          some createDefaultExtraction, some ["title", "description"]⟩,
         ⟨.cancel, some .cancelled⟩) :=
  ⟨rfl, by decide,
   (cancellation_precedes_answers .failure "please stop" _ rfl
     (Or.inr (Or.inl (by decide)))).1⟩

/-- C10: at the confirmation step (AI flow), recognition is by
case-insensitive substring with the affirmative checked first: an utterance
free of cancellation keywords that contains "yes", "confirm" or "create"
anywhere triggers creation, while one containing none of those but
containing "no" anywhere (even inside another word) cancels. -/
theorem confirmation_substring_matching (o : OracleOutcome) (u v : String)
    (s : ConversationState) (e : ExtractedParameters)
    (hCreating : s.isCreatingIssue = true)
    (hStep : s.currentStep = .CONFIRMING_DETAILS)
    (hEP : s.extractedParameters = some e)
    (hNoCancelU : checkForCancellation u = false)
    (hYes : strContains (lowerStr u) "yes" = true ∨
      strContains (lowerStr u) "confirm" = true ∨
      strContains (lowerStr u) "create" = true)
    (hNoCancelV : checkForCancellation v = false)
    (hNotYesV : strContains (lowerStr v) "yes" = false ∧
      strContains (lowerStr v) "confirm" = false ∧
      strContains (lowerStr v) "create" = false)
    (hNoV : strContains (lowerStr v) "no" = true) :
    processUserInput o u s = (s, ⟨.create_issue, none⟩) ∧
    processUserInput o v s = (resetState s, ⟨.cancel, some .cancelled⟩) := by
  constructor
  · unfold processUserInput
    rw [hCreating]
    unfold handleIssueCreationFlow
    rw [hNoCancelU, hStep, hEP]
    rcases hYes with h | h | h <;> simp [h]
  · unfold processUserInput
    rw [hCreating]
    unfold handleIssueCreationFlow
    rw [hNoCancelV, hStep, hEP]
    obtain ⟨h1, h2, h3⟩ := hNotYesV
    simp [h1, h2, h3, hNoV]

/-- C10, witness: at a concrete confirming state, "do not create" creates
the issue (it contains "create"), and "i think i know" cancels (it contains
"no" inside "know"). -/
theorem confirmation_substring_matching_witness :
    processUserInput .failure "do not create"
        ⟨true, emptyIssueData, .CONFIRMING_DETAILS, ["title"],
          some createDefaultExtraction, some []⟩
      = (⟨true, emptyIssueData, .CONFIRMING_DETAILS, ["title"],
          some createDefaultExtraction, some []⟩, ⟨.create_issue, none⟩) ∧
    processUserInput .failure "i think i know"
        ⟨true, emptyIssueData, .CONFIRMING_DETAILS, ["title"],
          some createDefaultExtraction, some []⟩
      = (resetState ⟨true, emptyIssueData, .CONFIRMING_DETAILS, ["title"],
          some createDefaultExtraction, some []⟩, ⟨.cancel, some .cancelled⟩) :=
  confirmation_substring_matching .failure "do not create" "i think i know" _
    createDefaultExtraction rfl rfl rfl (by decide)
    (Or.inr (Or.inr (by decide))) (by decide)
    ⟨by decide, by decide, by decide⟩ (by decide)

/-- A parsed model response with confident title and description, used for
the zero-question scenario. -/
def zeroQuestionParsed : ParsedParams :=
  ⟨some ⟨some "Login fails", some (mkRat 9 10)⟩, none, none, none,
   some ⟨some "Steps to reproduce", some (mkRat 8 10)⟩⟩

/-- C1, counterexample: on the zero-question path the engine never reaches
`CONFIRMING_DETAILS` and never shows the confirmation summary — with title
and description extracted at confidence 0.9 and 0.8, the turn immediately
returns the `create_issue` action with no message, and the state stays at
`AI_EXTRACTING`, so creation is attempted without confirmation. -/
theorem zero_question_counterexample :
    (processUserInput (.parsed zeroQuestionParsed) "create a bug about login"
      initState).2.action = .create_issue ∧
    (processUserInput (.parsed zeroQuestionParsed) "create a bug about login"
      initState).2.message = none ∧
    (processUserInput (.parsed zeroQuestionParsed) "create a bug about login"
      initState).1.currentStep ≠ .CONFIRMING_DETAILS := by
  refine ⟨by decide, by decide, by decide⟩

/-- C1, amended: for every utterance that triggers issue-creation intent
from idle, if the probabilistic extractor returns title and description each
with a truthy value and confidence at least 0.6 (so no field is missing),
the engine emits no follow-up question and immediately signals creation
(action `create_issue` with no message), bypassing the `CONFIRMING` state
and its summary. -/
theorem zero_question_path (p : ParsedParams) (u : String) (s : ConversationState)
    (hIdle : s.isCreatingIssue = false)
    (hIntent : detectsIssueCreationIntent u = true)
    (ht : isFalsy (normalizeParameter p.title).value = false)
    (htc : confidenceThreshold ≤ (normalizeParameter p.title).confidence)
    (hd : isFalsy (normalizeParameter p.description).value = false)
    (hdc : confidenceThreshold ≤ (normalizeParameter p.description).confidence) :
    (processUserInput (.parsed p) u s).2.action = .create_issue ∧
    (processUserInput (.parsed p) u s).2.message = none ∧
    (processUserInput (.parsed p) u s).1.currentStep = .AI_EXTRACTING := by
  have hmiss : identifyMissingParameters
      (validateExtractedParameters (extractParameters (.parsed p)))
      confidenceThreshold = [] := by
    unfold identifyMissingParameters
    rw [extractParameters_parsed_title, extractParameters_parsed_description,
      ht, hd]
    simp [not_lt.mpr htc, not_lt.mpr hdc]
  unfold processUserInput
  rw [hIdle, hIntent]
  simp only [Bool.false_eq_true, if_false, if_true]
  simp only [startIssueCreationWithAI, hmiss]
  exact ⟨trivial, trivial, trivial⟩

/-- C1, witness for the amended theorem at a concrete parsed response and
utterance. -/
theorem zero_question_path_witness :
    detectsIssueCreationIntent "create a bug about login" = true ∧
    isFalsy (normalizeParameter zeroQuestionParsed.title).value = false ∧
    confidenceThreshold ≤ (normalizeParameter zeroQuestionParsed.title).confidence ∧
    ((processUserInput (.parsed zeroQuestionParsed) "create a bug about login"
        initState).2.action = .create_issue ∧
      (processUserInput (.parsed zeroQuestionParsed) "create a bug about login"
        initState).2.message = none ∧
      (processUserInput (.parsed zeroQuestionParsed) "create a bug about login"
        initState).1.currentStep = .AI_EXTRACTING) :=
  ⟨by decide, by decide, by decide,
   zero_question_path zeroQuestionParsed "create a bug about login" initState
     rfl (by decide) (by decide) (by decide) (by decide) (by decide)⟩

/-- The state produced by starting issue creation when the external
extraction call fails: all three enumeration fields defaulted, title and
description pending, the title question already asked. -/
def stateAfterFailedExtraction : ConversationState :=
  ⟨true, ⟨some "FV Demo (Issues)", some "Bug", none, none, some "Medium"⟩,
   .ASKING_TITLE, ["title"], some createDefaultExtraction,
   some ["title", "description"]⟩

/-- C4: if the probabilistic extractor fails entirely, the engine still
reaches `CONFIRMING_DETAILS` after exactly two accepted answers — first a
title (any cancellation-free answer longer than 5 characters after
trimming), then a description (any cancellation-free answer) — with the
three enumeration fields auto-defaulted to Bug, "FV Demo (Issues)" and
Medium and never asked about (the only questions emitted are for title and
description, and only "title" enters the asked set). -/
theorem extraction_failure_two_answers (u t d : String)
    (hIntent : detectsIssueCreationIntent u = true)
    (htCancel : checkForCancellation t = false)
    (ht : 5 < (trimStr t).length)
    (hdCancel : checkForCancellation d = false) :
    processUserInput .failure u initState
      = (stateAfterFailedExtraction, ⟨.continue', some (.question "title")⟩) ∧
    processUserInput .failure t stateAfterFailedExtraction
      = (⟨true, ⟨some "FV Demo (Issues)", some "Bug", some (trimStr t), none,
            some "Medium"⟩, .ASKING_DESCRIPTION, ["title"],
          some createDefaultExtraction, some ["description"]⟩,
         ⟨.continue', some (.question "description")⟩) ∧
    processUserInput .failure d
        ⟨true, ⟨some "FV Demo (Issues)", some "Bug", some (trimStr t), none,
            some "Medium"⟩, .ASKING_DESCRIPTION, ["title"],
          some createDefaultExtraction, some ["description"]⟩
      = (⟨true, ⟨some "FV Demo (Issues)", some "Bug", some (trimStr t),
            some (extractDescriptionFromResponse d), some "Medium"⟩,
          .CONFIRMING_DETAILS, ["title"], some createDefaultExtraction, some []⟩,
         ⟨.continue', some .confirmPrompt⟩) := by
  refine ⟨?_, ?_, ?_⟩
  · unfold processUserInput
    have h0 : initState.isCreatingIssue = false := rfl
    rw [h0, hIntent]
    simp only [Bool.false_eq_true, if_false, if_true]
    decide
  · have htitle : extractTitleFromResponse t = some (trimStr t) := by
      unfold extractTitleFromResponse
      rw [if_pos ht]
    unfold processUserInput
    simp only [stateAfterFailedExtraction]
    unfold handleIssueCreationFlow
    rw [htCancel]
    simp only [handleMissingParameterCollection, processParameterResponse, htitle]
    simp [getStepForParameter]
  · have hdesc : processParameterResponse d "description"
        ⟨some "FV Demo (Issues)", some "Bug", some (trimStr t), none, some "Medium"⟩
        = some ⟨some "FV Demo (Issues)", some "Bug", some (trimStr t),
            some (extractDescriptionFromResponse d), some "Medium"⟩ := by
      simp [processParameterResponse]
    unfold processUserInput
    unfold handleIssueCreationFlow
    rw [hdCancel]
    simp only [handleMissingParameterCollection, hdesc]
    simp

/-- C4, witness: the concrete three-turn run "create a bug" / "Login page
broken" / "It fails badly" under a failing extractor. -/
theorem extraction_failure_two_answers_witness :
    detectsIssueCreationIntent "create a bug" = true ∧
    checkForCancellation "Login page broken" = false ∧
    5 < (trimStr "Login page broken").length ∧
    checkForCancellation "It fails badly" = false ∧
    processUserInput .failure "create a bug" initState
      = (stateAfterFailedExtraction, ⟨.continue', some (.question "title")⟩) :=
  ⟨by decide, by decide, by decide, by decide,
   (extraction_failure_two_answers "create a bug" "Login page broken"
     "It fails badly" (by decide) (by decide) (by decide) (by decide)).1⟩

/-- C5: a cancellation keyword while the engine is collecting or confirming
transitions to the cancelled terminal outcome and clears the slot state
(issue data emptied, asked-set emptied, mode back to idle); a subsequent
utterance that starts a new issue-creation intent, whose extraction leaves
title and description unresolved, begins from a clean state whose pending
sequence is computed afresh as `["title", "description"]`, asking for the
title first. -/
theorem cancel_clears_state (o o2 : OracleOutcome) (u v : String)
    (s : ConversationState)
    (hCreating : s.isCreatingIssue = true)
    (hCancel : checkForCancellation u = true)
    (hIntent : detectsIssueCreationIntent v = true)
    (ht : isFalsy (extractParameters o2).title.value = true ∨
      (extractParameters o2).title.confidence < confidenceThreshold)
    (hd : isFalsy (extractParameters o2).description.value = true ∨
      (extractParameters o2).description.confidence < confidenceThreshold) :
    processUserInput o u s = (resetState s, ⟨.cancel, some .cancelled⟩) ∧
    (resetState s).issueData = emptyIssueData ∧
    (resetState s).hasAskedFor = [] ∧
    (resetState s).isCreatingIssue = false ∧
    (processUserInput o2 v (resetState s)).1.missingParameters
      = some ["title", "description"] ∧
    (processUserInput o2 v (resetState s)).2
      = ⟨.continue', some (.question "title")⟩ := by
  have hmiss : identifyMissingParameters
      (validateExtractedParameters (extractParameters o2))
      confidenceThreshold = ["title", "description"] := by
    unfold identifyMissingParameters
    rw [validate_title, validate_description]
    rcases ht with h | h <;> rcases hd with h2 | h2 <;> simp [h, h2]
  have hturn1 : processUserInput o u s = (resetState s, ⟨.cancel, some .cancelled⟩) := by
    unfold processUserInput
    rw [hCreating]
    unfold handleIssueCreationFlow
    rw [hCancel]
    simp
  refine ⟨hturn1, rfl, rfl, rfl, ?_, ?_⟩ <;>
  · unfold processUserInput
    have h0 : (resetState s).isCreatingIssue = false := rfl
    rw [h0, hIntent]
    simp only [Bool.false_eq_true, if_false, if_true]
    simp only [startIssueCreationWithAI, hmiss]
    try simp [getStepForParameter]

/-- C5, witness: cancelling from a concrete collecting state with "cancel
that" and restarting with "create a bug" under a failing extractor. -/
theorem cancel_clears_state_witness :
    checkForCancellation "cancel that" = true ∧
    detectsIssueCreationIntent "create a bug" = true ∧
    processUserInput .failure "cancel that" stateAfterFailedExtraction
      = (resetState stateAfterFailedExtraction, ⟨.cancel, some .cancelled⟩) ∧
    (processUserInput .failure "create a bug"
        (resetState stateAfterFailedExtraction)).1.missingParameters
      = some ["title", "description"] :=
  ⟨by decide, by decide,
   (cancel_clears_state .failure .failure "cancel that" "create a bug"
     stateAfterFailedExtraction rfl (by decide) (by decide)
     (Or.inl (by decide)) (Or.inl (by decide))).1,
   (cancel_clears_state .failure .failure "cancel that" "create a bug"
     stateAfterFailedExtraction rfl (by decide) (by decide)
     (Or.inl (by decide)) (Or.inl (by decide))).2.2.2.2.1⟩

/-- C6: while the pending field is `description`, an answer that is exactly
(case-insensitively, after trimming) "skip", "none" or "no description" is
accepted: the description becomes known with value equal to the empty
string (`some ""`, distinct from the absent `none`), the parameter is popped
from the pending list, and the turn continues rather than re-asking. -/
theorem skip_description_empty (o : OracleOutcome) (u : String)
    (s : ConversationState) (rest : List String)
    (hCreating : s.isCreatingIssue = true)
    (hStep : s.currentStep = .ASKING_DESCRIPTION)
    (hMissing : s.missingParameters = some ("description" :: rest))
    (hSkip : trimStr (lowerStr u) = "skip" ∨ trimStr (lowerStr u) = "none"
       ∨ trimStr (lowerStr u) = "no description") :
    (processUserInput o u s).1.issueData.description = some "" ∧
    (processUserInput o u s).1.missingParameters = some rest ∧
    (processUserInput o u s).2.action = .continue' := by
  have hNoCancel : checkForCancellation u = false :=
    checkForCancellation_of_skipToken u hSkip
  have hdesc : extractDescriptionFromResponse u = "" := by
    unfold extractDescriptionFromResponse
    rcases hSkip with h | h | h <;> rw [h] <;> simp
  unfold processUserInput
  rw [hCreating]
  unfold handleIssueCreationFlow
  rw [hNoCancel, hStep]
  simp only [reduceCtorEq, false_and, if_false, ite_false]
  rw [hMissing]
  simp only [handleMissingParameterCollection, hMissing, processParameterResponse, hdesc]
  cases rest <;> simp

/-- C6, witness: answering "  SKIP " while the pending field is description
in a concrete collecting state. -/
theorem skip_description_empty_witness :
    trimStr (lowerStr "  SKIP ") = "skip" ∧
    ((processUserInput .failure "  SKIP "
        ⟨true, ⟨some "FV Demo (Issues)", some "Bug", some "Login page broken",
            none, some "Medium"⟩, .ASKING_DESCRIPTION, ["title"],
          some createDefaultExtraction, some ["description"]⟩).1.issueData.description
      = some "" ∧
    (processUserInput .failure "  SKIP "
        ⟨true, ⟨some "FV Demo (Issues)", some "Bug", some "Login page broken",
            none, some "Medium"⟩, .ASKING_DESCRIPTION, ["title"],
          some createDefaultExtraction, some ["description"]⟩).1.missingParameters
      = some [] ∧
    (processUserInput .failure "  SKIP "
        ⟨true, ⟨some "FV Demo (Issues)", some "Bug", some "Login page broken",
            none, some "Medium"⟩, .ASKING_DESCRIPTION, ["title"],
          some createDefaultExtraction, some ["description"]⟩).2.action
      = .continue') :=
  ⟨by decide,
   skip_description_empty .failure "  SKIP "
     ⟨true, ⟨some "FV Demo (Issues)", some "Bug", some "Login page broken",
         none, some "Medium"⟩, .ASKING_DESCRIPTION, ["title"],
       some createDefaultExtraction, some ["description"]⟩ []
     rfl rfl rfl (Or.inl (by decide))⟩
